import Mathlib

/-!
Verification of the Timetable & Attendance Consistency Engine of the
`vidhyardhi` repository.  The definitions below are shallow embeddings of the
TypeScript source (`src/App.tsx`, `src/services/supabaseService.ts`): wall-clock
times are kept as the `"HH:MM"` strings the code compares, the attendance table
is a map from the upsert key `(student_id, date, subject)` to the stored
`present` value, and the stateful operations are explicit state passing.
-/

namespace Vidhyardhi

/-- One attendance fact, `AttendanceRecord` from `types.ts`: keyed by
(studentId, date, subject) with a boolean `present` value. -/
structure AttendanceRecord where
  studentId : String
  date : String
  subject : String
  present : Bool
deriving DecidableEq, Repr

/-- Attendance percentage as computed in `App.tsx` (`StudentConsistencyWidget`
line 1460 and `AttendanceTracker` lines 3070-3072):
`totalDays > 0 ? Math.round((presentDays / totalDays) * 100) : 0`, where
`presentDays` counts the records with `present` set. -/
def percentage (records : List AttendanceRecord) : ℤ :=
  let totalDays := records.length
  let presentDays := (records.filter (·.present)).length
  if totalDays > 0 then round (((presentDays : ℚ) / totalDays) * 100) else 0

/-- Key of the attendance upsert, `onConflict: 'student_id, date, subject'`
in `supabaseService.saveAttendance`. -/
abbrev LedgerKey := String × String × String

/-- The `attendance` table, viewed as a map from the upsert key to the stored
`present` value (`none` when no row with that key exists). -/
def Ledger : Type := LedgerKey → Option Bool

/-- One row of an upsert: overwrite the row with this key, keep all others. -/
def upsertRow (L : Ledger) (k : LedgerKey) (present : Bool) : Ledger :=
  fun k' => if k' = k then some present else L k'

/-- `saveAttendance` from `supabaseService.ts` lines 231-239: map the batch to
rows `(student_id, date, subject, present)` and upsert them keyed by
`(student_id, date, subject)`. -/
def saveAttendance (records : List (String × Bool)) (date subject : String)
    (L : Ledger) : Ledger :=
  records.foldl (fun acc r => upsertRow acc (r.1, date, subject) r.2) L

/-- The value the batch writes for key `k` (the last matching pair of the
batch wins), if the batch touches `k` at all. -/
def lastWrite (records : List (String × Bool)) (date subject : String)
    (k : LedgerKey) : Option Bool :=
  records.foldl
    (fun acc r => if ((r.1, date, subject) : LedgerKey) = k then some r.2 else acc)
    none

theorem lastWrite_fold_or (records : List (String × Bool)) (date subject : String)
    (k : LedgerKey) (a : Option Bool) :
    records.foldl
        (fun acc r => if ((r.1, date, subject) : LedgerKey) = k then some r.2 else acc)
        a
      = (lastWrite records date subject k).or a := by
  induction records generalizing a with
  | nil => simp [lastWrite]
  | cons r rs ih =>
      by_cases h : ((r.1, date, subject) : LedgerKey) = k
      · simp only [lastWrite, List.foldl_cons, h, if_pos]
        rw [ih]
        cases lastWrite rs date subject k <;> rfl
      · simp only [lastWrite, List.foldl_cons, h, if_neg, not_false_iff]
        rw [ih, ih (a := (none : Option Bool))]
        simp

theorem saveAttendance_apply (records : List (String × Bool)) (date subject : String)
    (L : Ledger) (k : LedgerKey) :
    saveAttendance records date subject L k = ((lastWrite records date subject k).or (L k)) := by
  induction records generalizing L with
  | nil => simp [saveAttendance, lastWrite]
  | cons r rs ih =>
      show saveAttendance rs date subject (upsertRow L (r.1, date, subject) r.2) k = _
      rw [ih]
      have hl : lastWrite (r :: rs) date subject k
          = (lastWrite rs date subject k).or
              (if ((r.1, date, subject) : LedgerKey) = k then some r.2 else none) := by
        show List.foldl _ (if ((r.1, date, subject) : LedgerKey) = k then some r.2 else none) rs = _
        rw [lastWrite_fold_or]
      rw [hl, Option.or_assoc]
      congr 1
      by_cases h : ((r.1, date, subject) : LedgerKey) = k
      · simp [upsertRow, h.symm]
      · have h' : ¬(k = (r.1, date, subject)) := fun hk => h hk.symm
        simp [upsertRow, h, h']

theorem lastWrite_eq_none (records : List (String × Bool)) (date subject : String)
    (k : LedgerKey) (h : ∀ r ∈ records, ((r.1, date, subject) : LedgerKey) ≠ k) :
    lastWrite records date subject k = none := by
  induction records with
  | nil => rfl
  | cons r rs ih =>
      have hr := h r (List.mem_cons_self r rs)
      have : lastWrite (r :: rs) date subject k
          = (lastWrite rs date subject k).or
              (if ((r.1, date, subject) : LedgerKey) = k then some r.2 else none) := by
        show List.foldl _ (if ((r.1, date, subject) : LedgerKey) = k then some r.2 else none) rs = _
        rw [lastWrite_fold_or]
      rw [this, ih (fun r hr => h r (List.mem_cons_of_mem _ hr)), if_neg hr]
      rfl

/-- C4: committing the same batch twice in a row, for the same (date, subject)
key, leaves the attendance ledger in exactly the state one commit produces:
`saveAttendance` upserts by `(student_id, date, subject)`, so replaying the
batch rewrites every touched row to the value it already holds. -/
theorem C4_commit_idempotent (records : List (String × Bool)) (date subject : String)
    (L : Ledger) :
    saveAttendance records date subject (saveAttendance records date subject L)
      = saveAttendance records date subject L := by
  funext k
  rw [saveAttendance_apply, saveAttendance_apply]
  cases lastWrite records date subject k <;> rfl

/-- C5: the commit frame property.  `saveAttendance records date subject`
rewrites exactly the keys `(s, date, subject)` with `s` a student of the batch
(to the batch's last value for that student, overwriting an existing row or
inserting a fresh one), and every key not touched by the batch keeps its
previous value; in particular, after committing `[A present, B absent]` and
then `[A absent]` on the same (date, subject), A's row reads `present = false`
and B's row still reads `present = false`. -/
theorem C5_commit_frame (records : List (String × Bool)) (date subject : String)
    (L : Ledger) (k : LedgerKey) :
    saveAttendance records date subject L k = ((lastWrite records date subject k).or (L k)) ∧
    ((∀ r ∈ records, ((r.1, date, subject) : LedgerKey) ≠ k) →
      saveAttendance records date subject L k = L k) ∧
    saveAttendance [("A", false)] "2024-03-04" "Math"
        (saveAttendance [("A", true), ("B", false)] "2024-03-04" "Math" (fun _ => none))
        ("A", "2024-03-04", "Math") = some false ∧
    saveAttendance [("A", false)] "2024-03-04" "Math"
        (saveAttendance [("A", true), ("B", false)] "2024-03-04" "Math" (fun _ => none))
        ("B", "2024-03-04", "Math")
      = saveAttendance [("A", true), ("B", false)] "2024-03-04" "Math" (fun _ => none)
          ("B", "2024-03-04", "Math") := by
  refine ⟨saveAttendance_apply records date subject L k, ?_, ?_, ?_⟩
  · intro h
    rw [saveAttendance_apply, lastWrite_eq_none records date subject k h]
    rfl
  · rfl
  · rfl

/-- C5 witness: instantiating the frame property at a concrete untouched key. -/
theorem C5_commit_frame_witness :
    (∀ r ∈ [("A", true)], ((r.1, "2024-03-04", "Math") : LedgerKey) ≠ ("C", "2024-03-04", "Math")) ∧
    saveAttendance [("A", true)] "2024-03-04" "Math" (fun _ => none)
        ("C", "2024-03-04", "Math") = (fun _ : LedgerKey => (none : Option Bool))
        ("C", "2024-03-04", "Math") :=
  ⟨by decide,
   (C5_commit_frame [("A", true)] "2024-03-04" "Math" (fun _ => none)
      ("C", "2024-03-04", "Math")).2.1 (by decide)⟩

/-- C7: `percentage` is the integer `round(100 * present / total)` with exact
halves rounded upward (the floor of the ratio plus one half), it is `0` on an
empty record set, and it always lies between 0 and 100. -/
theorem C7_percentage_aggregation (records : List AttendanceRecord) :
    percentage records =
      (if records.length = 0 then 0
       else ⌊((100 * (((records.filter (·.present)).length : ℚ))) / records.length) + 1 / 2⌋) ∧
    0 ≤ percentage records ∧ percentage records ≤ 100 := by
  have hpt : (records.filter (·.present)).length ≤ records.length :=
    List.length_filter_le _ _
  by_cases h0 : records.length = 0
  · simp [percentage, h0]
  · have hpos : 0 < records.length := Nat.pos_of_ne_zero h0
    have hq : (0 : ℚ) < (records.length : ℚ) := by exact_mod_cast hpos
    have harg : ((((records.filter (·.present)).length : ℚ)) / records.length) * 100
        = (100 * (((records.filter (·.present)).length : ℚ))) / records.length := by
      ring
    have hval : percentage records
        = ⌊((100 * (((records.filter (·.present)).length : ℚ))) / records.length) + 1 / 2⌋ := by
      rw [percentage]
      simp only [hpos, if_pos]
      rw [harg, round_eq]
    refine ⟨by rw [hval]; simp [h0], ?_, ?_⟩
    · rw [hval]
      apply Int.floor_nonneg.mpr
      positivity
    · rw [hval]
      have hle : (100 * (((records.filter (·.present)).length : ℚ))) / records.length + 1 / 2
          ≤ 100 + 1 / 2 := by
        have : (100 * (((records.filter (·.present)).length : ℚ))) / records.length ≤ 100 := by
          rw [div_le_iff₀ hq]
          have : ((records.filter (·.present)).length : ℚ) ≤ (records.length : ℚ) := by
            exact_mod_cast hpt
          nlinarith
        linarith
      calc ⌊(100 * (((records.filter (·.present)).length : ℚ))) / records.length + 1 / 2⌋
          ≤ ⌊(100 : ℚ) + 1 / 2⌋ := Int.floor_le_floor hle
        _ = 100 := by norm_num [Int.floor_eq_iff]

/-- One weekly recurring slot, `TimetableEntry` from `types.ts`.  Database row
ids are modelled as natural numbers; day and times are the strings the code
stores (`"Monday"`..`"Saturday"`, zero-padded `"HH:MM"`) and compares. -/
structure TimetableEntry where
  id : Nat
  classId : String
  day : String
  subject : String
  faculty : String
  startTime : String
  endTime : String
deriving DecidableEq, Repr

/-- The JavaScript relational comparison `a < b` on strings: lexicographic by
code unit, embedded as the lexicographic order on the character list. -/
def jsLt (a b : String) : Prop := a.data < b.data

/-- The JavaScript relational comparison `a >= b` on strings (`b` is the left
operand here: `jsGe a b` is `b >= a`, i.e. `¬ b < a`). -/
def jsLe (a b : String) : Prop := a.data ≤ b.data

instance (a b : String) : Decidable (jsLt a b) :=
  inferInstanceAs (Decidable (a.data < b.data))

instance (a b : String) : Decidable (jsLe a b) :=
  inferInstanceAs (Decidable (a.data ≤ b.data))

/-- `checkOverlap` from `App.tsx` lines 2239-2245: some existing same-day slot
(other than the excluded one) satisfies
`newStart < existing.endTime && newEnd > existing.startTime`, where the times
are compared as strings. -/
def checkOverlap (entries : List TimetableEntry) (newDay newStart newEnd : String)
    (excludeId : Option Nat) : Bool :=
  entries.any (fun existing =>
    if excludeId = some existing.id then false
    else if existing.day ≠ newDay then false
    else decide (jsLt newStart existing.endTime ∧ jsLt existing.startTime newEnd))

/-- The timetable editor state for one class: the fetched `entries` plus the
database's id counter for fresh rows. -/
structure Store where
  entries : List TimetableEntry
  nextId : Nat
deriving DecidableEq, Repr

/-- The two rejection reasons of `handleAction` (`App.tsx` lines 2251-2259):
`"End time must be after start time."` and `"Time Conflict! ..."`. -/
inductive SlotError
  | invalidRange
  | conflict
deriving DecidableEq, Repr

/-- The add branch of `handleAction` (`App.tsx` lines 2247-2281): reject when
`startTime >= endTime`, then reject a conflict via `checkOverlap` with no
excluded id, otherwise insert the new row (with a fresh id). -/
def addSlot (st : Store) (classId day subject faculty startTime endTime : String) :
    Except SlotError Store :=
  if jsLe endTime startTime then .error .invalidRange
  else if checkOverlap st.entries day startTime endTime none then .error .conflict
  else .ok
    { entries := st.entries ++ [⟨st.nextId, classId, day, subject, faculty, startTime, endTime⟩],
      nextId := st.nextId + 1 }

/-- The update branch of `handleAction`: same two rejections, with the edited
row excluded from the comparison set, then
`updateTimetableEntry(editingEntry.id, {day, subject, faculty, startTime, endTime})`,
which rewrites the matching row and leaves its id and classId untouched. -/
def updateSlot (st : Store) (i : Nat) (day subject faculty startTime endTime : String) :
    Except SlotError Store :=
  if jsLe endTime startTime then .error .invalidRange
  else if checkOverlap st.entries day startTime endTime (some i) then .error .conflict
  else .ok { st with entries := st.entries.map (fun e =>
    if e.id = i then
      { e with day := day, subject := subject, faculty := faculty,
               startTime := startTime, endTime := endTime }
    else e) }

/-- One timetable editor action. -/
inductive SlotOp
  | add (classId day subject faculty startTime endTime : String)
  | update (i : Nat) (day subject faculty startTime endTime : String)

/-- Apply one action; a rejected action leaves the store unchanged. -/
def applySlotOp (st : Store) (op : SlotOp) : Store :=
  match op with
  | .add c d s f a b =>
      match addSlot st c d s f a b with
      | .ok st' => st'
      | .error _ => st
  | .update i d s f a b =>
      match updateSlot st i d s f a b with
      | .ok st' => st'
      | .error _ => st

/-- Run a sequence of editor actions. -/
def execSlotOps (ops : List SlotOp) (st : Store) : Store := ops.foldl applySlotOp st

/-- The empty timetable. -/
def store0 : Store := ⟨[], 0⟩

/-- Two same-day slots must not satisfy the half-open interval overlap test
`s1 < e2 AND s2 < e1` (string comparison, as in the code). -/
def slotsDisjoint (e₁ e₂ : TimetableEntry) : Prop :=
  e₁.day = e₂.day → ¬(jsLt e₁.startTime e₂.endTime ∧ jsLt e₂.startTime e₁.endTime)

/-- Store invariant: pairwise disjoint slots, distinct row ids, ids below the
fresh-id counter. -/
def StoreInv (st : Store) : Prop :=
  st.entries.Pairwise slotsDisjoint ∧ (st.entries.map (·.id)).Nodup ∧
    ∀ e ∈ st.entries, e.id < st.nextId

theorem checkOverlap_false {entries : List TimetableEntry} {day stT etT : String}
    {ex : Option Nat} (h : checkOverlap entries day stT etT ex = false) :
    ∀ e ∈ entries, ex ≠ some e.id → e.day = day →
      ¬(jsLt stT e.endTime ∧ jsLt e.startTime etT) := by
  intro e he hex hday
  have h' := (List.any_eq_false.mp h) e he
  rw [if_neg hex] at h'
  rw [if_neg (by simp [hday])] at h'
  simpa using h'

theorem storeInv_addSlot {st st' : Store} {c d s f stT etT : String}
    (hinv : StoreInv st) (h : addSlot st c d s f stT etT = .ok st') : StoreInv st' := by
  unfold addSlot at h
  split at h
  · exact absurd h (by simp)
  · split at h
    case isTrue => exact absurd h (by simp)
    case isFalse hno =>
      have hov : checkOverlap st.entries d stT etT none = false :=
        Bool.not_eq_true _ ▸ eq_false_of_ne_true hno
      obtain ⟨hpw, hnodup, hlt⟩ := hinv
      cases h
      refine ⟨?_, ?_, ?_⟩
      · rw [List.pairwise_append]
        refine ⟨hpw, List.pairwise_singleton _ _, ?_⟩
        intro a ha b hb
        rw [List.mem_singleton] at hb
        subst hb
        intro hday
        have := checkOverlap_false hov a ha (by simp) hday
        tauto
      · rw [List.map_append, List.nodup_append]
        refine ⟨hnodup, List.nodup_singleton _, ?_⟩
        intro x hx hx'
        simp only [List.map_cons, List.map_nil, List.mem_singleton] at hx'
        subst hx'
        obtain ⟨e, he, heid⟩ := List.mem_map.mp hx
        exact absurd heid (Nat.ne_of_lt (hlt e he))
      · intro e he
        rcases List.mem_append.mp he with he' | he'
        · exact Nat.lt_succ_of_lt (hlt e he')
        · rw [List.mem_singleton] at he'
          subst he'
          exact Nat.lt_succ_self _

theorem storeInv_updateSlot {st st' : Store} {i : Nat} {d s f stT etT : String}
    (hinv : StoreInv st) (h : updateSlot st i d s f stT etT = .ok st') : StoreInv st' := by
  unfold updateSlot at h
  split at h
  · exact absurd h (by simp)
  · split at h
    case isTrue => exact absurd h (by simp)
    case isFalse hno =>
      have hov : checkOverlap st.entries d stT etT (some i) = false :=
        Bool.not_eq_true _ ▸ eq_false_of_ne_true hno
      obtain ⟨hpw, hnodup, hlt⟩ := hinv
      set upd : TimetableEntry → TimetableEntry := fun e =>
        if e.id = i then
          { e with day := d, subject := s, faculty := f,
                   startTime := stT, endTime := etT }
        else e with hupd
      have hid : ∀ e, (upd e).id = e.id := by
        intro e
        by_cases he : e.id = i <;> simp [hupd, he]
      have hmapid : (st.entries.map upd).map (·.id) = st.entries.map (·.id) := by
        rw [List.map_map]
        exact List.map_congr_left (fun e _ => hid e)
      have hne : st.entries.Pairwise (fun x y => x.id ≠ y.id) := by
        have := hnodup
        rw [List.Nodup, List.pairwise_map] at this
        exact this
      have hcomb := hpw.and hne
      cases h
      refine ⟨?_, ?_, ?_⟩
      · rw [List.pairwise_map]
        refine hcomb.imp_of_mem ?_
        intro x y hx hy hxy
        obtain ⟨hdisj, hids⟩ := hxy
        by_cases hxi : x.id = i
        · have hyi : y.id ≠ i := fun hy' => hids (hy' ▸ hxi)
          intro hday
          simp only [hupd, hxi, if_pos, hyi, if_neg, not_false_iff] at hday ⊢
          have := checkOverlap_false hov y hy (by simpa using fun e => hyi e.symm) hday.symm
          tauto
        · by_cases hyi : y.id = i
          · intro hday
            simp only [hupd, hxi, hyi, if_pos, if_neg, not_false_iff] at hday ⊢
            have := checkOverlap_false hov x hx (by simpa using fun e => hxi e.symm) hday
            tauto
          · simpa only [hupd, hxi, hyi, if_neg, not_false_iff] using hdisj
      · rw [hmapid]
        exact hnodup
      · intro e he
        obtain ⟨e', he', rfl⟩ := List.mem_map.mp he
        rw [hid e']
        exact hlt e' he'

theorem storeInv_apply (st : Store) (op : SlotOp) (hinv : StoreInv st) :
    StoreInv (applySlotOp st op) := by
  cases op with
  | add c d s f a b =>
      cases h : addSlot st c d s f a b with
      | ok st' => simpa only [applySlotOp, h] using storeInv_addSlot hinv h
      | error e => simpa only [applySlotOp, h] using hinv
  | update i d s f a b =>
      cases h : updateSlot st i d s f a b with
      | ok st' => simpa only [applySlotOp, h] using storeInv_updateSlot hinv h
      | error e => simpa only [applySlotOp, h] using hinv

theorem storeInv_exec (ops : List SlotOp) (st : Store) (hinv : StoreInv st) :
    StoreInv (execSlotOps ops st) := by
  induction ops generalizing st with
  | nil => exact hinv
  | cons op ops ih => exact ih _ (storeInv_apply st op hinv)

/-- C1: after any sequence of successful `addSlot`/`updateSlot` calls starting
from the empty timetable, no two resulting slots of the same class and day
satisfy `s1 < e2 AND s2 < e1`; a proposed slot overlapping an existing
same-day slot is rejected with the conflict error, while a slot that merely
touches an endpoint is accepted (Scenario A). -/
theorem C1_no_overlap_invariant (ops : List SlotOp) :
    (execSlotOps ops store0).entries.Pairwise
      (fun e₁ e₂ => e₁.classId = e₂.classId → e₁.day = e₂.day →
        ¬(jsLt e₁.startTime e₂.endTime ∧ jsLt e₂.startTime e₁.endTime)) ∧
    ∃ st₁, addSlot store0 "cse-a" "Monday" "Math" "Smith" "09:00" "10:00" = .ok st₁ ∧
      addSlot st₁ "cse-a" "Monday" "Physics" "Jones" "09:30" "10:30" = .error .conflict ∧
      (addSlot st₁ "cse-a" "Monday" "Physics" "Jones" "10:00" "11:00").isOk = true := by
  constructor
  · have hinv := storeInv_exec ops store0 ⟨List.Pairwise.nil, List.Pairwise.nil, by simp [store0]⟩
    exact hinv.1.imp (fun h _ hday => h hday)
  · refine ⟨{ entries := [⟨0, "cse-a", "Monday", "Math", "Smith", "09:00", "10:00"⟩],
              nextId := 1 }, ?_, ?_, ?_⟩
    · rfl
    · rfl
    · decide

/-- The `DAYS_OF_WEEK` array from `App.tsx` line 10; index 0 is Monday,
Sunday has no entry (JavaScript `getDay()` is 0 for Sunday). -/
def DAYS_OF_WEEK : List String :=
  ["Monday", "Tuesday", "Wednesday", "Thursday", "Friday", "Saturday"]

/-- The readings the code takes from `new Date()`: `getDay()` (0 = Sunday ..
6 = Saturday), the second of the local day (for the `now >= start && now <= end`
comparisons of `Date`s built with `setHours(h, m, 0)`), the date string
`"YYYY-MM-DD"` from `toISOString()`, and the `"HH:MM"` string from
`toLocaleTimeString('en-GB', {hour12: false})`. -/
structure Clock where
  getDay : Nat
  secs : Nat
  dateStr : String
  timeStr : String
deriving DecidableEq, Repr

/-- JavaScript `String.split(sep)` for a one-character separator, on the
character list. -/
def splitOnChar (sep : Char) : List Char → List (List Char)
  | [] => [[]]
  | c :: rest =>
      let r := splitOnChar sep rest
      if c = sep then [] :: r
      else
        match r with
        | [] => [[c]]
        | h :: t => (c :: h) :: t

/-- One decimal digit of a time piece. -/
def digitVal? (c : Char) : Option Nat :=
  if 48 ≤ c.toNat ∧ c.toNat ≤ 57 then some (c.toNat - 48) else none

/-- JavaScript `Number(piece)` on the digit pieces the timetable stores:
the decimal value of a nonempty digit string, `none` (for `NaN`) otherwise. -/
def decimalNat? : List Char → Option Nat
  | [] => none
  | l => l.foldl
      (fun acc c =>
        match acc, digitVal? c with
        | some n, some d => some (10 * n + d)
        | _, _ => none)
      (some 0)

/-- `startTime.split(':').map(Number)` followed by `setHours(h, m, 0)`
(`App.tsx` lines 42-46), as the second-of-day it encodes; `none` when either
piece is not a number (the `Date` comparison is then false). -/
def timeSecs? (s : String) : Option Nat :=
  match splitOnChar ':' s.data with
  | h :: m :: _ =>
      match decimalNat? h, decimalNat? m with
      | some hh, some mm => some (3600 * hh + 60 * mm)
      | _, _ => none
  | _ => none

/-- `isCurrentlyHappening` from `App.tsx` lines 34-49: false unless
`getDay() - 1` indexes `DAYS_OF_WEEK`, the indexed day equals the slot's day,
and `now` lies in the closed interval from `startTime` to `endTime`. -/
def isCurrentlyHappening (startTime endTime day : String) (c : Clock) : Bool :=
  if c.getDay = 0 ∨ 7 ≤ c.getDay then false
  else
    match DAYS_OF_WEEK.get? (c.getDay - 1) with
    | none => false
    | some currentDay =>
        if currentDay ≠ day then false
        else
          match timeSecs? startTime, timeSecs? endTime with
          | some st, some en => decide (st ≤ c.secs ∧ c.secs ≤ en)
          | _, _ => false

/-- `refreshActiveSession` from `App.tsx` lines 1578-1581:
`schedule.find(s => isCurrentlyHappening(s.startTime, s.endTime, s.day))`,
where `schedule` comes from `getTimetableForClass` (ordered by `start_time`
ascending). -/
def liveSlot (schedule : List TimetableEntry) (c : Clock) : Option TimetableEntry :=
  schedule.find? (fun s => isCurrentlyHappening s.startTime s.endTime s.day c)

theorem isCurrentlyHappening_true {startTime endTime day : String} {c : Clock}
    (h : isCurrentlyHappening startTime endTime day c = true) :
    1 ≤ c.getDay ∧ c.getDay ≤ 6 ∧ DAYS_OF_WEEK.get? (c.getDay - 1) = some day ∧
    ∃ st en, timeSecs? startTime = some st ∧ timeSecs? endTime = some en ∧
      st ≤ c.secs ∧ c.secs ≤ en := by
  unfold isCurrentlyHappening at h
  by_cases h0 : c.getDay = 0 ∨ 7 ≤ c.getDay
  · rw [if_pos h0] at h
    exact absurd h (by simp)
  · rw [if_neg h0] at h
    push_neg at h0
    obtain ⟨hne0, hlt7⟩ := h0
    refine ⟨Nat.one_le_iff_ne_zero.mpr hne0, by omega, ?_⟩
    cases hd : DAYS_OF_WEEK.get? (c.getDay - 1) with
    | none => rw [hd] at h; exact absurd h (by simp)
    | some d =>
        rw [hd] at h
        have h' : (if d ≠ day then false
            else match timeSecs? startTime, timeSecs? endTime with
              | some st, some en => decide (st ≤ c.secs ∧ c.secs ≤ en)
              | _, _ => false) = true := h
        by_cases hde : d ≠ day
        · rw [if_pos hde] at h'
          exact absurd h' (by simp)
        · rw [if_neg hde] at h'
          push_neg at hde
          subst hde
          refine ⟨rfl, ?_⟩
          cases hst : timeSecs? startTime with
          | none =>
              rw [hst] at h'
              cases hen : timeSecs? endTime with
              | none => rw [hen] at h'; exact absurd h' (by simp)
              | some en => rw [hen] at h'; exact absurd h' (by simp)
          | some st =>
              cases hen : timeSecs? endTime with
              | none => rw [hst, hen] at h'; exact absurd h' (by simp)
              | some en =>
                  rw [hst, hen] at h'
                  exact ⟨st, en, rfl, rfl, of_decide_eq_true h'⟩

theorem find?_earliest {p : TimetableEntry → Bool} {l : List TimetableEntry}
    {s : TimetableEntry}
    (hsor : l.Pairwise (fun a b => jsLe a.startTime b.startTime))
    (hs : l.find? p = some s) :
    ∀ t ∈ l, p t = true → jsLe s.startTime t.startTime := by
  induction l with
  | nil => simp at hs
  | cons a l ih =>
      by_cases hpa : p a = true
      · rw [List.find?_cons_of_pos _ hpa] at hs
        injection hs with hsa
        subst hsa
        intro t ht _
        rcases List.mem_cons.mp ht with rfl | ht'
        · exact le_rfl
        · exact (List.pairwise_cons.mp hsor).1 t ht'
      · rw [List.find?_cons_of_neg _ hpa] at hs
        intro t ht hpt
        rcases List.mem_cons.mp ht with rfl | ht'
        · exact absurd hpt hpa
        · exact ih (List.pairwise_cons.mp hsor).2 hs t ht' hpt

/-- C2: the live-session evaluator.  `liveSlot` is `none` whenever `getDay()`
is Sunday; any returned slot belongs to the schedule, is scheduled on today's
day, and its closed time window contains the current instant
(`start <= now <= end`, both bounds inclusive); when the schedule is ordered
by start time (as `getTimetableForClass` returns it) the returned slot is the
earliest-starting matching one; and when no slot matches the result is
`none`. -/
theorem C2_live_slot (schedule : List TimetableEntry) (c : Clock) :
    (c.getDay = 0 → liveSlot schedule c = none) ∧
    (∀ s, liveSlot schedule c = some s →
      s ∈ schedule ∧ 1 ≤ c.getDay ∧ c.getDay ≤ 6 ∧
      DAYS_OF_WEEK.get? (c.getDay - 1) = some s.day ∧
      ∃ st en, timeSecs? s.startTime = some st ∧ timeSecs? s.endTime = some en ∧
        st ≤ c.secs ∧ c.secs ≤ en) ∧
    (schedule.Pairwise (fun a b => jsLe a.startTime b.startTime) →
      ∀ s, liveSlot schedule c = some s →
        ∀ t ∈ schedule, isCurrentlyHappening t.startTime t.endTime t.day c = true →
          jsLe s.startTime t.startTime) ∧
    ((∀ s ∈ schedule, isCurrentlyHappening s.startTime s.endTime s.day c = false) →
      liveSlot schedule c = none) := by
  refine ⟨?_, ?_, ?_, ?_⟩
  · intro h0
    apply List.find?_eq_none.mpr
    intro s _
    simp [isCurrentlyHappening, h0]
  · intro s hs
    have hs' : schedule.find?
        (fun s => isCurrentlyHappening s.startTime s.endTime s.day c) = some s := hs
    have hp := List.find?_some hs'
    exact ⟨List.mem_of_find?_eq_some hs',
      isCurrentlyHappening_true
        (show isCurrentlyHappening s.startTime s.endTime s.day c = true from hp)⟩
  · intro hsor s hs t ht hmatch
    have hs' : schedule.find?
        (fun s => isCurrentlyHappening s.startTime s.endTime s.day c) = some s := hs
    exact find?_earliest hsor hs' t ht hmatch
  · intro hnone
    apply List.find?_eq_none.mpr
    intro s hs
    simp [hnone s hs]

/-- C2 witness: a concrete Monday-10:00 clock against a sorted two-slot
Monday schedule; both slots match at the shared boundary instant and the
earliest-starting one is returned, inside its closed window. -/
theorem C2_live_slot_witness :
    (([⟨1, "cse-a", "Monday", "Math", "Smith", "09:00", "10:00"⟩,
       ⟨2, "cse-a", "Monday", "Physics", "Jones", "10:00", "11:00"⟩] :
        List TimetableEntry).Pairwise (fun a b => jsLe a.startTime b.startTime)) ∧
    liveSlot
        [⟨1, "cse-a", "Monday", "Math", "Smith", "09:00", "10:00"⟩,
         ⟨2, "cse-a", "Monday", "Physics", "Jones", "10:00", "11:00"⟩]
        ⟨1, 36000, "2024-03-04", "10:00"⟩
      = some ⟨1, "cse-a", "Monday", "Math", "Smith", "09:00", "10:00"⟩ ∧
    jsLe ("09:00" : String) "10:00" := by
  refine ⟨by decide, by decide, ?_⟩
  exact (C2_live_slot
      [⟨1, "cse-a", "Monday", "Math", "Smith", "09:00", "10:00"⟩,
       ⟨2, "cse-a", "Monday", "Physics", "Jones", "10:00", "11:00"⟩]
      ⟨1, 36000, "2024-03-04", "10:00"⟩).2.2.1 (by decide)
    ⟨1, "cse-a", "Monday", "Math", "Smith", "09:00", "10:00"⟩ (by decide)
    ⟨2, "cse-a", "Monday", "Physics", "Jones", "10:00", "11:00"⟩ (by decide) (by decide)

/-- `days[now.getDay() - 1]` in the attendance module (`App.tsx` lines
2613-2614): `undefined` on Sunday (index -1), otherwise the indexed day
name. -/
def gateDay (c : Clock) : Option String :=
  if c.getDay = 0 then none else DAYS_OF_WEEK.get? (c.getDay - 1)

/-- `timetableEntries.find(e => e.day === currentDay && e.subject ===
selectedSubject)` (`App.tsx` line 2621): the first entry for today's day and
the selected subject. -/
def gateEntryFor (selectedSubject : String) (timetableEntries : List TimetableEntry)
    (c : Clock) : Option TimetableEntry :=
  timetableEntries.find?
    (fun e => decide (gateDay c = some e.day ∧ e.subject = selectedSubject))

/-- The `isTimingValid` effect of `AttendanceModule` (`App.tsx` lines
2606-2633), rules in order: no selected subject is treated as valid; a date
other than today is invalid; otherwise the first timetable entry for (today's
day, selected subject) is looked up (`timetableEntries.find`), invalid when
there is none; finally invalid when the current `"HH:MM"` string is outside
that entry's closed window (`currentTimeStr < startTime || currentTimeStr >
endTime`, string comparison). -/
def isTimingValid (selectedSubject selectedDate : String)
    (timetableEntries : List TimetableEntry) (c : Clock) : Bool :=
  if selectedSubject = "" then true
  else if selectedDate ≠ c.dateStr then false
  else
    match gateEntryFor selectedSubject timetableEntries c with
    | none => false
    | some dayEntry =>
        if jsLt c.timeStr dayEntry.startTime ∨ jsLt dayEntry.endTime c.timeStr then false
        else true

/-- Gate verdicts in the vocabulary of spec section 4.3. -/
inductive GateResult
  | authorized
  | denied (reason : String)
deriving DecidableEq, Repr

/-- The specification's `authorizeMark` algorithm (spec section 4.3), written
from the spec's words for comparison with the code's `isTimingValid`: deny
`not-today` when the date is not today, deny `no-live-session` when
`liveSlot` is `none`, deny `subject-mismatch` when the live slot's subject
differs from the requested one, authorize otherwise. -/
def authorizeMarkSpec (schedule : List TimetableEntry) (subject date : String)
    (c : Clock) : GateResult :=
  if date ≠ c.dateStr then .denied "not-today"
  else
    match liveSlot schedule c with
    | none => .denied "no-live-session"
    | some s => if s.subject ≠ subject then .denied "subject-mismatch" else .authorized

/-- C3 counterexample: a class with two non-overlapping Monday Math slots
(09:00-10:00 and 14:00-15:00).  At Monday 14:30 the live slot is the
14:00-15:00 Math slot, so the claimed rules authorize marking "Math" for
today; the code's gate instead looks up the first (day, subject) entry -
the 09:00-10:00 slot - finds 14:30 outside its window, and denies. -/
theorem C3_attendance_gate_counterexample :
    authorizeMarkSpec
        [⟨1, "cse-a", "Monday", "Math", "Smith", "09:00", "10:00"⟩,
         ⟨2, "cse-a", "Monday", "Math", "Smith", "14:00", "15:00"⟩]
        "Math" "2024-03-04" ⟨1, 52200, "2024-03-04", "14:30"⟩ = .authorized ∧
    isTimingValid "Math" "2024-03-04"
        [⟨1, "cse-a", "Monday", "Math", "Smith", "09:00", "10:00"⟩,
         ⟨2, "cse-a", "Monday", "Math", "Smith", "14:00", "15:00"⟩]
        ⟨1, 52200, "2024-03-04", "14:30"⟩ = false := by
  constructor
  · rfl
  · rfl

/-- C3 (amended): the gate accepts exactly when the date is today and the
first timetable entry for (today's day, requested subject) exists and its
closed `"HH:MM"` window contains the current time string (with an empty
subject selection treated as valid); in particular, during a live Monday
09:00-10:00 Math slot at 09:15, marking "Math" for today is authorized and
marking "Physics" is denied. -/
theorem C3_attendance_gate (subject date : String) (entries : List TimetableEntry)
    (c : Clock) :
    (isTimingValid subject date entries c = true ↔
      (subject = "" ∨
        (date = c.dateStr ∧
          ∃ e, gateEntryFor subject entries c = some e ∧
            jsLe e.startTime c.timeStr ∧ jsLe c.timeStr e.endTime))) ∧
    isTimingValid "Math" "2024-03-04"
        [⟨1, "cse-a", "Monday", "Math", "Smith", "09:00", "10:00"⟩]
        ⟨1, 33300, "2024-03-04", "09:15"⟩ = true ∧
    isTimingValid "Physics" "2024-03-04"
        [⟨1, "cse-a", "Monday", "Math", "Smith", "09:00", "10:00"⟩]
        ⟨1, 33300, "2024-03-04", "09:15"⟩ = false := by
  refine ⟨?_, rfl, rfl⟩
  unfold isTimingValid
  by_cases hsub : subject = ""
  · simp [hsub]
  · rw [if_neg hsub]
    by_cases hdate : date = c.dateStr
    · rw [if_neg (show ¬date ≠ c.dateStr from fun h => h hdate)]
      cases hf : gateEntryFor subject entries c with
      | none =>
          simp only [hf, Bool.false_eq_true, false_iff, not_or]
          refine ⟨hsub, ?_⟩
          rintro ⟨-, e, he, -⟩
          exact Option.noConfusion he
      | some e0 =>
          simp only [hf]
          by_cases ht : jsLt c.timeStr e0.startTime ∨ jsLt e0.endTime c.timeStr
          · rw [if_pos ht]
            simp only [Bool.false_eq_true, false_iff, not_or]
            refine ⟨hsub, ?_⟩
            rintro ⟨-, e, he, h1, h2⟩
            injection he with he
            subst he
            have h1' : e0.startTime.data ≤ c.timeStr.data := h1
            have h2' : c.timeStr.data ≤ e0.endTime.data := h2
            rcases ht with ht | ht
            · exact absurd h1' (not_le.mpr (show c.timeStr.data < e0.startTime.data from ht))
            · exact absurd h2' (not_le.mpr (show e0.endTime.data < c.timeStr.data from ht))
          · rw [if_neg ht]
            simp only [true_iff]
            have h1 : ¬(c.timeStr.data < e0.startTime.data) := fun hlt => ht (Or.inl hlt)
            have h2 : ¬(e0.endTime.data < c.timeStr.data) := fun hlt => ht (Or.inr hlt)
            exact Or.inr ⟨hdate, e0, rfl, not_lt.mp h1, not_lt.mp h2⟩
    · rw [if_pos (show date ≠ c.dateStr from hdate)]
      simp only [Bool.false_eq_true, false_iff, not_or]
      exact ⟨hsub, fun h => hdate h.1⟩

/-- A row of the `users` table (the fields `getDailyActivityStats` selects). -/
structure UserRow where
  uid : String
  classId : String
  role : String
deriving DecidableEq, Repr

/-- A row of the `classes` table. -/
structure ClassRow where
  id : String
  name : String
deriving DecidableEq, Repr

/-- One entry of the `getDailyActivityStats` result. -/
structure ActivityStat where
  id : String
  name : String
  total : Nat
  present : Nat
  absent : Nat
  percentage : ℚ
deriving DecidableEq, Repr

/-- The body of the `classes.map` in `getDailyActivityStats`
(`supabaseService.ts` lines 344-360): `attendance` is already filtered to the
date, `users` to the roles student/cr. -/
def activityStatFor (attendance : List AttendanceRecord) (users : List UserRow)
    (cls : ClassRow) : ActivityStat :=
  let classStudents := users.filter (fun u => u.classId = cls.id)
  let studentIds := classStudents.map (·.uid)
  let classAttendance := attendance.filter (fun a => a.studentId ∈ studentIds)
  let uniquePresentCount := ((classAttendance.filter (·.present)).map (·.studentId)).dedup.length
  let total := classStudents.length
  { id := cls.id, name := cls.name, total := total, present := uniquePresentCount,
    absent := total - uniquePresentCount,
    percentage := if total > 0 then ((uniquePresentCount : ℚ) / total) * 100 else 0 }

/-- `getDailyActivityStats` from `supabaseService.ts` lines 337-361: fetch the
attendance rows of the date, all classes, and the users with role student or
cr, then map every class to its stat. -/
def getDailyActivityStats (attendanceTable : List AttendanceRecord)
    (classesTable : List ClassRow) (usersTable : List UserRow) (date : String) :
    List ActivityStat :=
  let attendance := attendanceTable.filter (fun a => a.date = date)
  let users := usersTable.filter (fun u => u.role = "student" ∨ u.role = "cr")
  classesTable.map (activityStatFor attendance users)

/-- The distinct students of class `cls` having at least one `present = true`
attendance record on `date` (the set the claim counts). -/
def presentStudentsOnDate (attendanceTable : List AttendanceRecord)
    (usersTable : List UserRow) (cls : ClassRow) (date : String) : Finset String :=
  (((usersTable.filter (fun u => (u.role = "student" ∨ u.role = "cr") ∧
      u.classId = cls.id)).map (·.uid)).toFinset).filter
    (fun uid => ∃ a ∈ attendanceTable, a.date = date ∧ a.present = true ∧ a.studentId = uid)

theorem activityStatFor_present (attendance : List AttendanceRecord)
    (users : List UserRow) (cls : ClassRow) :
    (activityStatFor attendance users cls).present
      = ((((attendance.filter (fun a =>
          a.studentId ∈ (users.filter (fun u => u.classId = cls.id)).map (·.uid))).filter
            (·.present)).map (·.studentId)).toFinset).card := by
  rw [List.card_toFinset]
  rfl

theorem activityStatFor_total (attendance : List AttendanceRecord)
    (users : List UserRow) (cls : ClassRow) :
    (activityStatFor attendance users cls).total
      = (users.filter (fun u => u.classId = cls.id)).length := rfl

theorem presentStudents_eq (attendanceTable : List AttendanceRecord)
    (usersTable : List UserRow) (cls : ClassRow) (date : String) :
    ((((attendanceTable.filter (fun a => a.date = date)).filter (fun a =>
        a.studentId ∈ (((usersTable.filter (fun u => u.role = "student" ∨ u.role = "cr")).filter
          (fun u => u.classId = cls.id)).map (·.uid)))).filter (·.present)).map
            (·.studentId)).toFinset
      = presentStudentsOnDate attendanceTable usersTable cls date := by
  ext x
  simp only [presentStudentsOnDate, List.mem_toFinset, List.mem_map, List.mem_filter,
    Finset.mem_filter, decide_eq_true_eq]
  constructor
  · rintro ⟨a, ⟨⟨⟨ha, hdate⟩, hmem⟩, hpres⟩, rfl⟩
    obtain ⟨u, ⟨⟨hu, hurole⟩, hucls⟩, huid⟩ := hmem
    exact ⟨⟨u, ⟨hu, hurole, hucls⟩, huid⟩, a, ha, hdate, hpres, rfl⟩
  · rintro ⟨⟨u, ⟨hu, hurole, hucls⟩, huid⟩, a, ha, hdate, hpres, hsid⟩
    exact ⟨a, ⟨⟨⟨ha, hdate⟩, ⟨u, ⟨⟨hu, hurole⟩, hucls⟩, by rw [huid, hsid]⟩⟩, hpres⟩, hsid⟩

theorem activityStatFor_present_le (attendance : List AttendanceRecord)
    (users : List UserRow) (cls : ClassRow) :
    (activityStatFor attendance users cls).present
      ≤ (activityStatFor attendance users cls).total := by
  rw [activityStatFor_present, activityStatFor_total]
  have hsub : ((((attendance.filter (fun a =>
      a.studentId ∈ (users.filter (fun u => u.classId = cls.id)).map (·.uid))).filter
        (·.present)).map (·.studentId)).toFinset)
      ⊆ ((users.filter (fun u => u.classId = cls.id)).map (·.uid)).toFinset := by
    intro x hx
    simp only [List.mem_toFinset, List.mem_map, List.mem_filter, decide_eq_true_eq] at hx ⊢
    obtain ⟨a, ⟨⟨_, hmem⟩, _⟩, rfl⟩ := hx
    exact hmem
  calc ((((attendance.filter (fun a =>
        a.studentId ∈ (users.filter (fun u => u.classId = cls.id)).map (·.uid))).filter
          (·.present)).map (·.studentId)).toFinset).card
      ≤ (((users.filter (fun u => u.classId = cls.id)).map (·.uid)).toFinset).card :=
        Finset.card_le_card hsub
    _ ≤ ((users.filter (fun u => u.classId = cls.id)).map (·.uid)).length :=
        ((users.filter (fun u => u.classId = cls.id)).map (·.uid)).toFinset_card_le
    _ = (users.filter (fun u => u.classId = cls.id)).length := List.length_map _ _

/-- C6: in every per-class entry of the daily activity statistics, `present`
is the number of distinct students of that class having at least one
`present = true` attendance record on the date (a student present in several
subjects that day counts once), `absent` is `total` minus `present`, and
`present` never exceeds `total`. -/
theorem C6_daily_activity (attendanceTable : List AttendanceRecord)
    (classesTable : List ClassRow) (usersTable : List UserRow) (date : String)
    (cls : ClassRow) :
    getDailyActivityStats attendanceTable classesTable usersTable date
      = classesTable.map
          (activityStatFor (attendanceTable.filter (fun a => a.date = date))
            (usersTable.filter (fun u => u.role = "student" ∨ u.role = "cr"))) ∧
    (activityStatFor (attendanceTable.filter (fun a => a.date = date))
        (usersTable.filter (fun u => u.role = "student" ∨ u.role = "cr")) cls).present
      = (presentStudentsOnDate attendanceTable usersTable cls date).card ∧
    (activityStatFor (attendanceTable.filter (fun a => a.date = date))
        (usersTable.filter (fun u => u.role = "student" ∨ u.role = "cr")) cls).absent
      = (activityStatFor (attendanceTable.filter (fun a => a.date = date))
          (usersTable.filter (fun u => u.role = "student" ∨ u.role = "cr")) cls).total
        - (activityStatFor (attendanceTable.filter (fun a => a.date = date))
            (usersTable.filter (fun u => u.role = "student" ∨ u.role = "cr")) cls).present ∧
    (activityStatFor (attendanceTable.filter (fun a => a.date = date))
        (usersTable.filter (fun u => u.role = "student" ∨ u.role = "cr")) cls).present
      ≤ (activityStatFor (attendanceTable.filter (fun a => a.date = date))
          (usersTable.filter (fun u => u.role = "student" ∨ u.role = "cr")) cls).total := by
  refine ⟨rfl, ?_, rfl, activityStatFor_present_le _ _ _⟩
  rw [activityStatFor_present, ← presentStudents_eq attendanceTable usersTable cls date]

/-- A row of the `notices` table (the fields the pipeline writes). -/
structure Notice where
  classId : String
  title : String
  content : String
deriving DecidableEq, Repr

/-- The `action` argument of `broadcastTimetableUpdate`:
`'added' | 'updated' | 'removed'`. -/
inductive TTAction
  | added
  | updated
  | removed
deriving DecidableEq, Repr

/-- The action literal itself. -/
def actionStr : TTAction → String
  | .added => "added"
  | .updated => "updated"
  | .removed => "removed"

/-- `action.toUpperCase()`. -/
def actionTag : TTAction → String
  | .added => "ADDED"
  | .updated => "UPDATED"
  | .removed => "REMOVED"

/-- The notice `broadcastTimetableUpdate` inserts (`supabaseService.ts` lines
89-98): title `TIMETABLE_<ACTION>` behind the siren marker, content a
human-readable summary naming the subject. -/
def timetableNotice (classId subject : String) (action : TTAction) : Notice :=
  { classId := classId,
    title := "🚨 TIMETABLE_" ++ actionTag action,
    content := "The schedule for " ++ subject ++ " was " ++ actionStr action ++
      ". Check your dashboard for the latest details." }

/-- The timetable and notices tables. -/
structure TimetableDb where
  timetable : List TimetableEntry
  notices : List Notice
deriving DecidableEq, Repr

/-- `broadcastTimetableUpdate`: insert the machine notice for the class. -/
def broadcastTimetableUpdate (db : TimetableDb) (classId subject : String)
    (action : TTAction) : TimetableDb :=
  { db with notices := db.notices ++ [timetableNotice classId subject action] }

/-- `addTimetableEntry` (`supabaseService.ts` lines 100-121): insert the row,
then broadcast `added` for its class and subject. -/
def addTimetableEntry (db : TimetableDb) (e : TimetableEntry) : TimetableDb :=
  broadcastTimetableUpdate { db with timetable := db.timetable ++ [e] }
    e.classId e.subject .added

/-- The `Partial<TimetableEntry>` argument of `updateTimetableEntry`: absent
fields are `undefined` and are dropped from the row update. -/
structure EntryUpdate where
  classId : Option String
  day : Option String
  subject : Option String
  faculty : Option String
  startTime : Option String
  endTime : Option String
deriving DecidableEq, Repr

/-- The row rewrite of `updateTimetableEntry`: given fields overwrite, absent
fields keep the stored value; id and class are never written. -/
def applyEntryUpdate (u : EntryUpdate) (e : TimetableEntry) : TimetableEntry :=
  { e with day := u.day.getD e.day, subject := u.subject.getD e.subject,
           faculty := u.faculty.getD e.faculty,
           startTime := u.startTime.getD e.startTime,
           endTime := u.endTime.getD e.endTime }

/-- `updateTimetableEntry` (`supabaseService.ts` lines 123-136): rewrite the
matching row, then broadcast `updated` only under
`if (entry.classId && entry.subject)` - both fields supplied and truthy
(non-empty). -/
def updateTimetableEntry (db : TimetableDb) (i : Nat) (u : EntryUpdate) : TimetableDb :=
  let newTimetable := db.timetable.map (fun e => if e.id = i then applyEntryUpdate u e else e)
  let db' := { db with timetable := newTimetable }
  match u.classId, u.subject with
  | some cid, some subj =>
      if cid ≠ "" ∧ subj ≠ "" then broadcastTimetableUpdate db' cid subj .updated else db'
  | _, _ => db'

/-- `deleteTimetableEntry` (`supabaseService.ts` lines 138-143): look the row
up, delete it, broadcast `removed` when the lookup succeeded. -/
def deleteTimetableEntry (db : TimetableDb) (i : Nat) : TimetableDb :=
  let row := db.timetable.find? (fun e => e.id = i)
  let db' := { db with timetable := db.timetable.filter (fun e => ¬e.id = i) }
  match row with
  | some e => broadcastTimetableUpdate db' e.classId e.subject .removed
  | none => db'

/-- The update branch of `handleAction` (`App.tsx` lines 2263-2271): it passes
`{day, subject, faculty, startTime, endTime}` - and no `classId` - to
`updateTimetableEntry`. -/
def adminUpdateSlot (db : TimetableDb) (i : Nat)
    (day subject faculty startTime endTime : String) : TimetableDb :=
  updateTimetableEntry db i
    ⟨none, some day, some subject, some faculty, some startTime, some endTime⟩

/-- C8 counterexample: the admin timetable editor's update path omits
`classId`, so `updateTimetableEntry` skips `broadcastTimetableUpdate`: this
successful `updateSlot` mutation (the row's times change) creates no
Notice. -/
theorem C8_change_notification_counterexample :
    (adminUpdateSlot ⟨[⟨1, "cse-a", "Monday", "Math", "Smith", "09:00", "10:00"⟩], []⟩
        1 "Monday" "Math" "Smith" "11:00" "12:00").notices = ([] : List Notice) ∧
    (adminUpdateSlot ⟨[⟨1, "cse-a", "Monday", "Math", "Smith", "09:00", "10:00"⟩], []⟩
        1 "Monday" "Math" "Smith" "11:00" "12:00").timetable
      ≠ [⟨1, "cse-a", "Monday", "Math", "Smith", "09:00", "10:00"⟩] := by
  exact ⟨rfl, by decide⟩

/-- C8 (amended): `addSlot` always appends exactly one Notice in the affected
class, titled with the reserved marker followed by the `ADDED` tag and a
human-readable summary naming the subject; `deleteSlot` of an existing row
does the same with the `REMOVED` tag; `updateSlot` appends the `UPDATED`
notice only when the service call supplies truthy `classId` and `subject`
fields - the admin editor's update path supplies no `classId`, so its updates
append no Notice. -/
theorem C8_change_notification (db : TimetableDb) (e : TimetableEntry) (i : Nat)
    (u : EntryUpdate) (cid subj subject : String) (action : TTAction) :
    (addTimetableEntry db e).notices
      = db.notices ++ [timetableNotice e.classId e.subject .added] ∧
    (timetableNotice cid subject action).title.data
      = ("🚨 TIMETABLE_").data ++ (actionTag action).data ∧
    (timetableNotice cid subject action).classId = cid ∧
    (u.classId = some cid → u.subject = some subj → cid ≠ "" → subj ≠ "" →
      (updateTimetableEntry db i u).notices
        = db.notices ++ [timetableNotice cid subj .updated]) ∧
    (u.classId = none → (updateTimetableEntry db i u).notices = db.notices) ∧
    (db.timetable.find? (fun e => e.id = i) = some e →
      (deleteTimetableEntry db i).notices
        = db.notices ++ [timetableNotice e.classId e.subject .removed]) := by
  refine ⟨rfl, rfl, rfl, ?_, ?_, ?_⟩
  · intro hc hs hc' hs'
    unfold updateTimetableEntry
    simp only [hc, hs]
    rw [if_pos ⟨hc', hs'⟩]
    rfl
  · intro hc
    unfold updateTimetableEntry
    simp only [hc]
  · intro hfind
    unfold deleteTimetableEntry
    simp only [hfind]
    rfl

/-- C8 witness: a concrete add, a concrete update carrying truthy classId and
subject, and a concrete delete of an existing row each append their marker
notice; a concrete update without classId appends none. -/
theorem C8_change_notification_witness :
    ((⟨some "cse-a", some "Monday", some "Math", some "Smith", some "11:00",
        some "12:00"⟩ : EntryUpdate).classId = some "cse-a") ∧
    ("cse-a" : String) ≠ "" ∧
    (updateTimetableEntry ⟨[⟨1, "cse-a", "Monday", "Math", "Smith", "09:00", "10:00"⟩], []⟩ 1
        ⟨some "cse-a", some "Monday", some "Math", some "Smith", some "11:00", some "12:00"⟩).notices
      = ([] : List Notice) ++ [timetableNotice "cse-a" "Math" .updated] ∧
    (deleteTimetableEntry ⟨[⟨1, "cse-a", "Monday", "Math", "Smith", "09:00", "10:00"⟩], []⟩
        1).notices
      = ([] : List Notice) ++ [timetableNotice "cse-a" "Math" .removed] := by
  refine ⟨rfl, by decide, ?_, ?_⟩
  · exact (C8_change_notification
      ⟨[⟨1, "cse-a", "Monday", "Math", "Smith", "09:00", "10:00"⟩], []⟩
      ⟨1, "cse-a", "Monday", "Math", "Smith", "09:00", "10:00"⟩ 1
      ⟨some "cse-a", some "Monday", some "Math", some "Smith", some "11:00", some "12:00"⟩
      "cse-a" "Math" "Math" .updated).2.2.2.1 rfl rfl (by decide) (by decide)
  · exact (C8_change_notification
      ⟨[⟨1, "cse-a", "Monday", "Math", "Smith", "09:00", "10:00"⟩], []⟩
      ⟨1, "cse-a", "Monday", "Math", "Smith", "09:00", "10:00"⟩ 1
      ⟨some "cse-a", some "Monday", some "Math", some "Smith", some "11:00", some "12:00"⟩
      "cse-a" "Math" "Math" .updated).2.2.2.2.2 (by decide)

/-- JavaScript `[...new Set(list)]`: the distinct values in first-occurrence
order. -/
def jsDedupFirst (l : List String) : List String :=
  l.foldl (fun acc a => if a ∈ acc then acc else acc ++ [a]) []

/-- One row of the subject analytics report built by `fetchReport`. -/
structure SubjectStat where
  subject : String
  totalSessions : Nat
  presentSessions : Nat
  percentage : ℚ
deriving DecidableEq, Repr

/-- JavaScript `x.toFixed(1)`: the value rounded to one decimal place. -/
def toFixed1 (q : ℚ) : ℚ := ((round (10 * q) : ℤ) : ℚ) / 10

/-- The subject aggregation of `fetchReport` (`App.tsx` lines 879-893):
deduplicate the subjects of the fetched class records, then for each subject
count its records and its `present = true` records and render
`(present / total * 100).toFixed(1)` (the string `'0%'` when the group would
be empty). -/
def subjectReport (data : List AttendanceRecord) : List SubjectStat :=
  (jsDedupFirst (data.map (·.subject))).map (fun sub =>
    let subAtt := data.filter (·.subject = sub)
    let total := subAtt.length
    let present := (subAtt.filter (·.present)).length
    { subject := sub, totalSessions := total, presentSessions := present,
      percentage := if total > 0 then toFixed1 (((present : ℚ) / total) * 100) else 0 })

theorem jsDedupFirst_fold_mem (l : List String) (acc : List String) (x : String) :
    (x ∈ l.foldl (fun acc a => if a ∈ acc then acc else acc ++ [a]) acc) ↔
      x ∈ acc ∨ x ∈ l := by
  induction l generalizing acc with
  | nil => simp
  | cons a l ih =>
      rw [List.foldl_cons, ih]
      have hstep : (x ∈ if a ∈ acc then acc else acc ++ [a]) ↔ x ∈ acc ∨ x = a := by
        by_cases ha : a ∈ acc
        · rw [if_pos ha]
          constructor
          · exact Or.inl
          · rintro (h | rfl)
            · exact h
            · exact ha
        · rw [if_neg ha]
          simp [List.mem_append]
      rw [hstep, List.mem_cons]
      tauto

theorem mem_jsDedupFirst (l : List String) (x : String) :
    x ∈ jsDedupFirst l ↔ x ∈ l := by
  unfold jsDedupFirst
  rw [jsDedupFirst_fold_mem]
  simp

theorem subjectReport_example_eq :
    subjectReport [⟨"s1", "2024-03-04", "Math", true⟩,
        ⟨"s2", "2024-03-04", "Math", false⟩,
        ⟨"s3", "2024-03-04", "Math", false⟩]
      = [⟨"Math", 3, 1, (333 : ℚ) / 10⟩] := by
  simp [subjectReport, jsDedupFirst, toFixed1]
  norm_num [round_eq]

/-- C9 counterexample: a class with three Math records of which one is
present.  The report renders the percentage to one decimal place,
`(1/3*100).toFixed(1)`, i.e. the rational 33.3 - while the claimed
`percentage` definition, the integer `round(100*1/3)`, is 33. -/
theorem C9_per_subject_counterexample :
    (subjectReport [⟨"s1", "2024-03-04", "Math", true⟩,
        ⟨"s2", "2024-03-04", "Math", false⟩,
        ⟨"s3", "2024-03-04", "Math", false⟩]).map (·.percentage) = [(333 : ℚ) / 10] ∧
    ((333 : ℚ) / 10) ≠ ((round ((100 * (1 : ℚ)) / 3) : ℤ) : ℚ) ∧
    (round ((100 * (1 : ℚ)) / 3) : ℤ) = 33 := by
  refine ⟨by rw [subjectReport_example_eq]; rfl, ?_, ?_⟩
  · rw [show (round ((100 * (1 : ℚ)) / 3) : ℤ) = 33 by norm_num [round_eq]]
    norm_num
  · norm_num [round_eq]

/-- C9 (amended): the report contains exactly the subjects of the class's
records in range; each row counts the subject's records (`totalSessions`),
its `present = true` records (`presentSessions`), the group is never empty,
and `percentage` is `present / total * 100` rounded to one decimal place -
not the integer `round(100 * present / total)` of the percentage
definition. -/
theorem C9_per_subject_breakdown (data : List AttendanceRecord) :
    (∀ sub, sub ∈ (subjectReport data).map (·.subject) ↔ sub ∈ data.map (·.subject)) ∧
    (∀ st ∈ subjectReport data,
      st.totalSessions = (data.filter (·.subject = st.subject)).length ∧
      st.presentSessions = ((data.filter (·.subject = st.subject)).filter (·.present)).length ∧
      0 < st.totalSessions ∧
      st.percentage = toFixed1 (((st.presentSessions : ℚ) / st.totalSessions) * 100)) := by
  have hsubjects : (subjectReport data).map (·.subject)
      = jsDedupFirst (data.map (·.subject)) := by
    unfold subjectReport
    rw [List.map_map]
    exact List.map_id _ ▸ rfl
  constructor
  · intro sub
    rw [hsubjects, mem_jsDedupFirst]
  · intro st hst
    obtain ⟨sub, hsub, rfl⟩ := List.mem_map.mp hst
    have hmem : sub ∈ data.map (·.subject) := (mem_jsDedupFirst _ _).mp hsub
    obtain ⟨r, hr, hrsub⟩ := List.mem_map.mp hmem
    have hpos : 0 < (data.filter (·.subject = sub)).length := by
      apply List.length_pos.mpr
      apply List.ne_nil_of_mem (a := r)
      rw [List.mem_filter]
      exact ⟨hr, by simp [hrsub]⟩
    exact ⟨rfl, rfl, hpos, if_pos hpos⟩

/-- C9 witness: instantiating the amended per-row facts on the
counterexample's data and its single "Math" row. -/
theorem C9_per_subject_breakdown_witness :
    (⟨"Math", 3, 1, (333 : ℚ) / 10⟩ : SubjectStat) ∈
      subjectReport [⟨"s1", "2024-03-04", "Math", true⟩,
        ⟨"s2", "2024-03-04", "Math", false⟩,
        ⟨"s3", "2024-03-04", "Math", false⟩] ∧
    ((⟨"Math", 3, 1, (333 : ℚ) / 10⟩ : SubjectStat).totalSessions
        = (([⟨"s1", "2024-03-04", "Math", true⟩,
            ⟨"s2", "2024-03-04", "Math", false⟩,
            ⟨"s3", "2024-03-04", "Math", false⟩] :
              List AttendanceRecord).filter (·.subject = "Math")).length ∧
      (⟨"Math", 3, 1, (333 : ℚ) / 10⟩ : SubjectStat).presentSessions
        = ((([⟨"s1", "2024-03-04", "Math", true⟩,
            ⟨"s2", "2024-03-04", "Math", false⟩,
            ⟨"s3", "2024-03-04", "Math", false⟩] :
              List AttendanceRecord).filter (·.subject = "Math")).filter (·.present)).length ∧
      0 < (⟨"Math", 3, 1, (333 : ℚ) / 10⟩ : SubjectStat).totalSessions ∧
      (⟨"Math", 3, 1, (333 : ℚ) / 10⟩ : SubjectStat).percentage
        = toFixed1 ((((⟨"Math", 3, 1, (333 : ℚ) / 10⟩ : SubjectStat).presentSessions : ℚ)
            / (⟨"Math", 3, 1, (333 : ℚ) / 10⟩ : SubjectStat).totalSessions) * 100)) := by
  have hmem : (⟨"Math", 3, 1, (333 : ℚ) / 10⟩ : SubjectStat) ∈
      subjectReport [⟨"s1", "2024-03-04", "Math", true⟩,
        ⟨"s2", "2024-03-04", "Math", false⟩,
        ⟨"s3", "2024-03-04", "Math", false⟩] := by
    rw [subjectReport_example_eq]
    exact List.mem_singleton.mpr rfl
  exact ⟨hmem,
    (C9_per_subject_breakdown [⟨"s1", "2024-03-04", "Math", true⟩,
        ⟨"s2", "2024-03-04", "Math", false⟩,
        ⟨"s3", "2024-03-04", "Math", false⟩]).2 _ hmem⟩

/-- The ASCII digit character of a decimal digit. -/
def digitChar (d : Nat) : Char := Char.ofNat (48 + d)

/-- A zero-padded five-character `"HH:MM"` time string. -/
def fmtHHMM (h m : Nat) : String :=
  String.mk [digitChar (h / 10), digitChar (h % 10), ':', digitChar (m / 10), digitChar (m % 10)]

theorem digitChar_lt_iff :
    ∀ d < 10, ∀ e < 10, (digitChar d < digitChar e ↔ d < e) := by decide

theorem digitChar_eq_iff :
    ∀ d < 10, ∀ e < 10, (digitChar d = digitChar e ↔ d = e) := by decide

theorem digitChar_ne_colon : ∀ d < 10, digitChar d ≠ ':' := by decide

theorem digitVal_digitChar : ∀ d < 10, digitVal? (digitChar d) = some d := by decide

theorem lex_cons_iff' {a b : Char} {l m : List Char} :
    List.Lex (· < ·) (a :: l) (b :: m) ↔ a < b ∨ (a = b ∧ List.Lex (· < ·) l m) := by
  constructor
  · intro h
    cases h with
    | cons h => exact Or.inr ⟨rfl, h⟩
    | rel h => exact Or.inl h
  · rintro (h | ⟨rfl, h⟩)
    · exact List.Lex.rel h
    · exact List.Lex.cons h

theorem timeSecs_fmtHHMM (h m : Nat) (hh : h < 24) (hm : m < 60) :
    timeSecs? (fmtHHMM h m) = some (3600 * h + 60 * m) := by
  have hsplit : splitOnChar ':' (fmtHHMM h m).data
      = [[digitChar (h / 10), digitChar (h % 10)], [digitChar (m / 10), digitChar (m % 10)]] := by
    show splitOnChar ':'
        [digitChar (h / 10), digitChar (h % 10), ':', digitChar (m / 10), digitChar (m % 10)] = _
    simp [splitOnChar, digitChar_ne_colon (h / 10) (by omega),
      digitChar_ne_colon (h % 10) (by omega), digitChar_ne_colon (m / 10) (by omega),
      digitChar_ne_colon (m % 10) (by omega)]
  have hdec : ∀ a b : Nat, a < 10 → b < 10 →
      decimalNat? [digitChar a, digitChar b] = some (10 * a + b) := by
    intro a b ha hb
    have hstep : decimalNat? [digitChar a, digitChar b]
        = List.foldl
            (fun acc c =>
              match acc, digitVal? c with
              | some n, some d => some (10 * n + d)
              | _, _ => none)
            (some 0) [digitChar a, digitChar b] := rfl
    rw [hstep, List.foldl_cons, List.foldl_cons, List.foldl_nil]
    simp [digitVal_digitChar a ha, digitVal_digitChar b hb]
  unfold timeSecs?
  rw [hsplit]
  simp only [hdec (h / 10) (h % 10) (by omega) (by omega),
    hdec (m / 10) (m % 10) (by omega) (by omega)]
  exact congrArg some (by omega)

/-- C10: the schedule-time comparisons are JavaScript string comparisons
(`jsLt`, used by `checkOverlap` and the attendance gate); on zero-padded
five-character `"HH:MM"` strings this lexicographic order coincides with the
order of the encoded time-of-day values (`timeSecs?`, the parse
`isCurrentlyHappening` performs), so the checks are correct exactly for
zero-padded times - while a non-padded time such as `"9:00"` compares
incorrectly (`"10:00" < "9:00"` as strings although 10:00 is later). -/
theorem C10_string_time_order (h₁ m₁ h₂ m₂ : Nat)
    (hh₁ : h₁ < 24) (hm₁ : m₁ < 60) (hh₂ : h₂ < 24) (hm₂ : m₂ < 60) :
    (jsLt (fmtHHMM h₁ m₁) (fmtHHMM h₂ m₂) ↔ 60 * h₁ + m₁ < 60 * h₂ + m₂) ∧
    timeSecs? (fmtHHMM h₁ m₁) = some (3600 * h₁ + 60 * m₁) ∧
    jsLt "10:00" "9:00" ∧
    (timeSecs? "9:00").getD 0 < (timeSecs? "10:00").getD 0 := by
  refine ⟨?_, timeSecs_fmtHHMM h₁ m₁ hh₁ hm₁, by decide, by decide⟩
  have e₁ := digitChar_lt_iff (h₁ / 10) (by omega) (h₂ / 10) (by omega)
  have q₁ := digitChar_eq_iff (h₁ / 10) (by omega) (h₂ / 10) (by omega)
  have e₂ := digitChar_lt_iff (h₁ % 10) (by omega) (h₂ % 10) (by omega)
  have q₂ := digitChar_eq_iff (h₁ % 10) (by omega) (h₂ % 10) (by omega)
  have e₃ := digitChar_lt_iff (m₁ / 10) (by omega) (m₂ / 10) (by omega)
  have q₃ := digitChar_eq_iff (m₁ / 10) (by omega) (m₂ / 10) (by omega)
  have e₄ := digitChar_lt_iff (m₁ % 10) (by omega) (m₂ % 10) (by omega)
  have q₄ := digitChar_eq_iff (m₁ % 10) (by omega) (m₂ % 10) (by omega)
  have hcolonlt : ((':' : Char) < ':') ↔ False := iff_false_intro (by decide)
  have hcoloneq : ((':' : Char) = ':') ↔ True := iff_true_intro rfl
  have hnil : List.Lex (fun a b : Char => a < b) [] [] ↔ False :=
    iff_false_intro (fun h => by cases h)
  have hshow : jsLt (fmtHHMM h₁ m₁) (fmtHHMM h₂ m₂) ↔
      List.Lex (fun a b : Char => a < b)
        [digitChar (h₁ / 10), digitChar (h₁ % 10), ':', digitChar (m₁ / 10), digitChar (m₁ % 10)]
        [digitChar (h₂ / 10), digitChar (h₂ % 10), ':', digitChar (m₂ / 10), digitChar (m₂ % 10)] :=
    Iff.rfl
  rw [hshow]
  rw [lex_cons_iff', lex_cons_iff', lex_cons_iff', lex_cons_iff', lex_cons_iff']
  rw [e₁, q₁, e₂, q₂, hcolonlt, hcoloneq, e₃, q₃, e₄, q₄, hnil]
  simp only [false_or, true_and, and_false, or_false]
  omega

/-- C10 witness: the general equivalence applied at 09:00 versus 10:00. -/
theorem C10_string_time_order_witness :
    (9 < 24 ∧ 0 < 60 ∧ 10 < 24 ∧ 0 < 60) ∧
    (jsLt (fmtHHMM 9 0) (fmtHHMM 10 0) ↔ 60 * 9 + 0 < 60 * 10 + 0) :=
  ⟨by decide,
   (C10_string_time_order 9 0 10 0 (by decide) (by decide) (by decide) (by decide)).1⟩

end Vidhyardhi
